import Mathlib

/-!
# Verification of the go-fast concurrency-pattern module

Shallow embedding of the concurrency patterns in the repository's
concurrency-pattern source file (worker pool, pipeline, fan-out/fan-in,
broadcast, cancellation) and of the closure-based rate limiter, together
with proofs or refutations of the specification's claims about them.

Modelling conventions:
* A conduit (Go channel) carrying a finite, eventually-closed stream is
  embedded as the `List` of the values it delivers, in FIFO order.
* A single task looping `for x := range in { out <- f(x) }` over one
  input conduit is embedded as a structurally recursive function on that
  list (`stageLoop`), and — where termination within bounded steps is
  itself the claim — as an explicit step machine (`stageStep`).
* When k tasks all `range` over one shared conduit, the runtime delivers
  each item to exactly one of them; a schedule is a function
  `assign : Nat → Fin k` giving, for the item at each input position,
  the task that receives it.  `taken` is the subsequence a given task
  receives under a schedule.
* `sync.WaitGroup` is a counter: `Add(1)` per task before spawn,
  `Done` on exit; `Wait` returns exactly when the counter is zero.
* `time.Time` values are integers (nanosecond timestamps, as in Go).
-/

/-- Embeds `generate` (concurrency patterns file, pipeline section):
a single task sending each of `nums` in order into a fresh conduit,
then closing it via the deferred close. -/
def generate : List Int → List Int
  | [] => []
  | n :: rest => n :: generate rest

/-- The single-consumer stage loop shared by every stage-like task in the
source (`square`, each `fanOut` worker body, each `fanIn` forwarder with
`f = id`, `subscribe`, and the `workerPool` worker body with
`f = (· * 2)`): `for x := range in { out <- f(x) }`.  The output conduit
delivers exactly the transformed items, in input order. -/
def stageLoop (f : α → β) : List α → List β
  | [] => []
  | x :: rest => f x :: stageLoop f rest

/-- Embeds `square` (pipeline section): a stage whose transform is
`n * n`. -/
def square (xs : List Int) : List Int :=
  stageLoop (fun n => n * n) xs

/-- Embeds `subscribe` (broadcast section): a stage whose transform
prefixes the subscriber's name, as in
`output <- fmt.Sprintf("%s received: %s", name, msg)`. -/
def subscribe (name : String) (msgs : List String) : List String :=
  stageLoop (fun msg => name ++ " received: " ++ msg) msgs

/-- The subsequence of `items` that the task `j` receives when `k` tasks
all `range` over one shared conduit under the schedule `assign`
(`assign i` is the task that wins the receive of the item at position
`i`).  This is the arbitration the Go runtime performs for the
`workerPool` workers, the `fanOut` workers and the three `subscribe`
loops of `broadcastExample`, which all share one input channel: each
sent value is delivered to exactly one receiver. -/
def taken (k : Nat) (items : List α) (assign : Nat → Fin k) (j : Fin k) : List α :=
  (items.enum.filter fun p => decide (assign p.1 = j)).map Prod.snd

/-- State of a stage-like task midway through its run: the backlog still
in its input conduit, the items already sent to its output conduit, and
whether it has executed its deferred `close(out)` and exited. -/
structure StageState (α β : Type) where
  pending : List α
  sent : List β
  closed : Bool
deriving DecidableEq

/-- Initial state of a stage-like task whose input conduit has been
closed with backlog `xs` still buffered. -/
def stageInit (xs : List α) : StageState α β :=
  ⟨xs, [], false⟩

/-- One scheduling step of a stage-like task (the loop of `square`, a
`fanOut` worker, a `fanIn` forwarder, `subscribe`, or a `workerPool`
worker): if an item is pending, dequeue it, transform it and enqueue the
result; if the input is closed and drained, run the deferred
`close(out)` and exit; after exiting, do nothing. -/
def stageStep (f : α → β) (s : StageState α β) : StageState α β :=
  if s.closed then s
  else
    match s.pending with
    | [] => { pending := [], sent := s.sent, closed := true }
    | x :: rest => { pending := rest, sent := s.sent ++ [f x], closed := false }

/-- Embeds the `fanIn` coordinator (`go func() { wg.Wait(); close(output) }`):
the merged output conduit is closed exactly when every forwarding task
(one `stageLoop id` per input conduit, each tracked by the wait group)
has reached its exited state. -/
def fanInClosed (shares : List (List Int)) : Bool :=
  shares.all fun sh =>
    ((stageStep (id : Int → Int))^[sh.length + 1] (stageInit sh)).closed

/-- Exit record of one `workerPool` worker task: the results it enqueued,
whether its `wg.Done()` ran, and the panic value if its processing
function faulted. -/
structure WorkerExit where
  sent : List Int
  decremented : Bool
  panicMsg : Option String
deriving DecidableEq

/-- The body of the `workerPool` worker loop with a fallible processing
function in place of the infallible `job * 2` of the source (the
specification's failure semantics quantify over failing processing
functions): process jobs in order, enqueuing each result, until the jobs
conduit is drained or a job faults; a fault aborts the loop and unwinds. -/
def workerBody (process : Int → Except String Int) : List Int → List Int × Option String
  | [] => ([], none)
  | j :: rest =>
    match process j with
    | .ok r =>
      let p := workerBody process rest
      (r :: p.1, p.2)
    | .error msg => ([], some msg)

/-- Embeds one `workerPool` worker task run under its `defer wg.Done()`:
in Go, a deferred call runs when the function returns normally and also
while a panic unwinds the function, so the decrement happens on both
exit paths; the panic value, if any, is recorded. -/
def runWorker (process : Int → Except String Int) (jobs : List Int) : WorkerExit :=
  match workerBody process jobs with
  | (rs, none) => { sent := rs, decremented := true, panicMsg := none }
  | (rs, some m) => { sent := rs, decremented := true, panicMsg := some m }

/-- The wait-group counter after the orchestrator's `wg.Add(1)` per
worker and each exited worker's decrement: `Wait` returns exactly when
this reaches zero. -/
def finalCounter (w : Nat) (exits : List WorkerExit) : Int :=
  (w : Int) - ((exits.filter fun e => e.decremented).length : Int)

/-- The multiset of results delivered on the `workerPool` results
conduit: each worker `j` runs the worker loop (`results <- job * 2`)
over the jobs it receives from the shared jobs conduit under the
schedule `assign`, and the results conduit receives the union. -/
def poolResults (k : Nat) (jobs : List Int) (assign : Nat → Fin k) : Multiset Int :=
  ∑ j : Fin k, ((stageLoop (fun job => job * 2) (taken k jobs assign j) : List Int) : Multiset Int)

/-- The output conduit of `fanOut` worker `j`: the worker squares
(`output <- n * n`) each item it receives from the shared input conduit
under the schedule `assign`. -/
def fanOutOutputs (k : Nat) (input : List Int) (assign : Nat → Fin k) (j : Fin k) : List Int :=
  stageLoop (fun n => n * n) (taken k input assign j)

/-- The multiset delivered on the `fanIn` output conduit: one forwarding
task per input conduit copies every item across, so the output receives
the union of the inputs (cross-source interleaving is unspecified and is
not represented in a multiset). -/
def fanInMerge (k : Nat) (outs : Fin k → List Int) : Multiset Int :=
  ∑ j : Fin k, ((outs j : List Int) : Multiset Int)

/-- The input sequence `[1..100]` of the fan-out/fan-in round-trip
property. -/
def input100 : List Int :=
  (List.range 100).map fun n => (n : Int) + 1

/-- Embeds the `done` channel of `cancellationExample`, an unbuffered
`chan bool`: its observable state is the number of senders currently
blocked in `done <- true` (fires not yet delivered).  Firing adds one
pending sender. -/
def fireSignal (pending : Nat) : Nat :=
  pending + 1

/-- One poll of the `done` channel by the worker's
`select { case <-done: return; default: }`: the non-blocking receive
succeeds exactly when a sender is blocked on the channel, and consumes
that one send; otherwise the default branch runs and the signal is
observed unfired. -/
def pollSignal (pending : Nat) : Bool × Nat :=
  if 0 < pending then (true, pending - 1) else (false, pending)

/-- State captured by the `rateLimiter` closure (closures file): the
remaining token count and the timestamp of the last window reset.
Timestamps and durations are integers, as Go's nanosecond counts are. -/
structure LimiterState where
  tokens : Int
  lastReset : Int
deriving DecidableEq

/-- Embeds one call of the closure returned by
`rateLimiter(requests, duration)` at time `now` (the mutex makes calls
sequential, so one call is a pure state transition): if `duration` has
elapsed since `lastReset`, refill `tokens` to `requests` and restart the
window at `now`; then, if a token remains, consume one and permit,
otherwise deny. -/
def acquire (requests duration : Int) (now : Int) (s : LimiterState) : Bool × LimiterState :=
  let s1 := if now - s.lastReset ≥ duration then ⟨requests, now⟩ else s
  if s1.tokens > 0 then (true, ⟨s1.tokens - 1, s1.lastReset⟩) else (false, s1)

/-- A sequence of `acquire` calls at the given timestamps, threading the
limiter state; returns the permit/deny answers in call order and the
final state. -/
def acquireSeq (requests duration : Int) (ts : List Int) (s : LimiterState) :
    List Bool × LimiterState :=
  match ts with
  | [] => ([], s)
  | t :: rest =>
    let r := acquire requests duration t s
    let q := acquireSeq requests duration rest r.2
    (r.1 :: q.1, q.2)

/-- Number of permitted (`true`) answers among a list of `acquire`
results. -/
def countTrue (bs : List Bool) : Nat :=
  (bs.filter id).length

/-- Embeds the workers' sends into the `results` conduit of
`workerPoolExample` during the phase in which nobody receives (the
orchestrator is blocked in `wg.Wait()` and drains `results` only after
it returns): a send into a bounded conduit with buffer `buf` and
capacity `cap` succeeds when the buffer has room and otherwise blocks
forever (`none`), since no receiver will ever free a slot before the
wait returns. -/
def trySendAll (cap : Nat) : List Int → List Int → Option (List Int)
  | [], buf => some buf
  | r :: rest, buf =>
    if buf.length < cap then trySendAll cap rest (buf ++ [r]) else none

/-- A concrete receive schedule for 9 jobs over 3 workers (job at
position `i` goes to worker `i mod 3`), used to instantiate the worker
pool theorems. -/
def wAssign3 : Nat → Fin 3 :=
  fun i => ⟨i % 3, Nat.mod_lt i (by decide)⟩

/-- A concrete fallible processing function that faults on the job `2`
and doubles every other job, used to instantiate the failure-semantics
theorem. -/
def failingProcess : Int → Except String Int :=
  fun j => if j = 2 then Except.error "boom" else Except.ok (j * 2)

theorem stageLoop_eq_map (f : α → β) (xs : List α) : stageLoop f xs = xs.map f := by
  induction xs with
  | nil => rfl
  | cons x rest ih => simp [stageLoop, ih]

theorem generate_eq_id (nums : List Int) : generate nums = nums := by
  induction nums with
  | nil => rfl
  | cons n rest ih => simp [generate, ih]

/-- Receive competition partitions the input: summed over all `k`
receivers, the items received are exactly the items sent, as a
multiset.  (Stated for an arbitrary indexed list first.) -/
theorem sum_filter_pairs (k : Nat) (assign : Nat → Fin k) (l : List (Nat × α)) :
    (∑ j : Fin k, (((l.filter fun p => decide (assign p.1 = j)).map Prod.snd : List α) : Multiset α))
      = ((l.map Prod.snd : List α) : Multiset α) := by
  induction l with
  | nil => simp
  | cons p t ih =>
    have hstep : ∀ j : Fin k,
        (((p :: t).filter fun q => decide (assign q.1 = j)).map Prod.snd : Multiset α)
          = (if assign p.1 = j then ({p.2} : Multiset α) else 0)
              + ((t.filter fun q => decide (assign q.1 = j)).map Prod.snd : Multiset α) := by
      intro j
      by_cases h : assign p.1 = j
      · simp [List.filter_cons, h]
      · simp [List.filter_cons, h]
    rw [Finset.sum_congr rfl fun j _ => hstep j, Finset.sum_add_distrib, ih]
    have hsingle : (∑ j : Fin k, if assign p.1 = j then ({p.2} : Multiset α) else 0)
        = ({p.2} : Multiset α) := by
      rw [Finset.sum_ite_eq (Finset.univ : Finset (Fin k)) (assign p.1)
        (fun _ => ({p.2} : Multiset α))]
      simp
    rw [hsingle]
    simp

/-- The partition property specialised to `taken`. -/
theorem taken_partition (k : Nat) (items : List α) (assign : Nat → Fin k) :
    (∑ j : Fin k, ((taken k items assign j : List α) : Multiset α)) = (items : Multiset α) := by
  have h := sum_filter_pairs k assign items.enum
  simpa [taken, List.enum_map_snd] using h

theorem multiset_card_sum (s : Finset ι) (f : ι → Multiset α) :
    (∑ j ∈ s, f j).card = ∑ j ∈ s, (f j).card := by
  classical
  induction s using Finset.induction with
  | empty => simp
  | insert h ih => simp [Finset.sum_insert h, ih]

theorem multiset_map_sum (s : Finset ι) (g : ι → Multiset α) (f : α → β) :
    Multiset.map f (∑ j ∈ s, g j) = ∑ j ∈ s, Multiset.map f (g j) := by
  classical
  induction s using Finset.induction with
  | empty => simp
  | insert h ih => simp [Finset.sum_insert h, ih]

/-- The map-then-merge identity shared by the worker pool and the
fan-out/fan-in composition: transforming each received share and taking
the union reproduces the transform of the whole input, as a multiset. -/
theorem sum_map_taken (k : Nat) (items : List α) (assign : Nat → Fin k) (f : α → β) :
    (∑ j : Fin k, (((taken k items assign j).map f : List β) : Multiset β))
      = Multiset.map f (items : Multiset α) := by
  have hcoe : ∀ j : Fin k,
      (((taken k items assign j).map f : List β) : Multiset β)
        = Multiset.map f ((taken k items assign j : List α) : Multiset α) := by
    intro j
    simp
  rw [Finset.sum_congr rfl fun j _ => hcoe j, ← multiset_map_sum, taken_partition]

/-- A stage-like task with backlog `xs` and already-sent prefix `acc`
runs to completion in `xs.length + 1` scheduler steps: it drains the
backlog, appends the transformed items in order, and closes its output. -/
theorem stageStep_run (f : α → β) (xs : List α) (acc : List β) :
    (stageStep f)^[xs.length + 1] (⟨xs, acc, false⟩ : StageState α β)
      = ⟨[], acc ++ xs.map f, true⟩ := by
  induction xs generalizing acc with
  | nil => simp [stageStep]
  | cons x rest ih =>
    have hstep : stageStep f (⟨x :: rest, acc, false⟩ : StageState α β)
        = ⟨rest, acc ++ [f x], false⟩ := by
      simp [stageStep]
    rw [List.length_cons, Function.iterate_succ_apply, hstep, ih]
    simp

theorem runWorker_decremented (process : Int → Except String Int) (jobs : List Int) :
    (runWorker process jobs).decremented = true := by
  rcases h : workerBody process jobs with ⟨rs, e⟩
  cases e <;> simp [runWorker, h]

theorem runWorker_sent (process : Int → Except String Int) (jobs : List Int) :
    (runWorker process jobs).sent = (workerBody process jobs).1 := by
  rcases h : workerBody process jobs with ⟨rs, e⟩
  cases e <;> simp [runWorker, h]

/-- Everything a worker enqueues on the results conduit is the
successful output of one of its jobs; a faulting job contributes
nothing. -/
theorem workerBody_sent_sound (process : Int → Except String Int) (jobs : List Int) :
    ∀ r ∈ (workerBody process jobs).1, ∃ j ∈ jobs, process j = Except.ok r := by
  induction jobs with
  | nil => simp [workerBody]
  | cons j rest ih =>
    intro r hr
    rcases h : process j with msg | v
    · simp only [workerBody, h] at hr
      simp at hr
    · simp only [workerBody, h] at hr
      simp at hr
      rcases hr with hr | hr
      · exact ⟨j, by simp, by rw [h, hr]⟩
      · rcases ih r hr with ⟨j2, hj2, hok⟩
        exact ⟨j2, by simp [hj2], hok⟩

/-- Every worker decrements, so the wait-group counter returns to zero
and `wg.Wait()` returns, whatever the processing function did. -/
theorem finalCounter_map_runWorker (process : Int → Except String Int)
    (shares : List (List Int)) :
    finalCounter shares.length (shares.map (runWorker process)) = 0 := by
  unfold finalCounter
  have hall : (shares.map (runWorker process)).filter (fun e => e.decremented)
      = shares.map (runWorker process) := by
    apply List.filter_eq_self.mpr
    intro e he
    rcases List.mem_map.1 he with ⟨sh, _, rfl⟩
    simp [runWorker_decremented]
  rw [hall, List.length_map]
  simp

/-- When the pending sends fit in the remaining buffer space, every send
is accepted immediately and the buffer ends up holding all of them in
order. -/
theorem trySendAll_ok (cap : Nat) (rs : List Int) :
    ∀ buf : List Int, buf.length + rs.length ≤ cap →
      trySendAll cap rs buf = some (buf ++ rs) := by
  induction rs with
  | nil => intro buf h; simp [trySendAll]
  | cons r rest ih =>
    intro buf h
    have hlt : buf.length < cap := by
      simp only [List.length_cons] at h
      omega
    have hnext : (buf ++ [r]).length + rest.length ≤ cap := by
      simp only [List.length_append, List.length_singleton] at *
      simp only [List.length_cons] at h
      omega
    rw [trySendAll, if_pos hlt, ih (buf ++ [r]) hnext]
    simp

/-- Inside one window (every call strictly before the reset timestamp
plus the duration), no refill fires: the window start never moves and
the number of permits is bounded by the tokens available at entry. -/
theorem acquireSeq_window_aux (requests duration : Int) (ts : List Int) :
    ∀ s : LimiterState, 0 ≤ s.tokens →
      (∀ t ∈ ts, t - s.lastReset < duration) →
      (acquireSeq requests duration ts s).2.lastReset = s.lastReset
        ∧ ((countTrue (acquireSeq requests duration ts s).1 : Int) ≤ s.tokens) := by
  induction ts with
  | nil =>
    intro s h0 hw
    simp [acquireSeq, countTrue]
    exact h0
  | cons t rest ih =>
    intro s h0 hw
    have hlt : t - s.lastReset < duration := hw t (by simp)
    have hnr : ¬ (t - s.lastReset ≥ duration) := by omega
    by_cases hp : s.tokens > 0
    · have hstep : acquire requests duration t s
          = (true, ⟨s.tokens - 1, s.lastReset⟩) := by
        simp [acquire, hnr, hp]
      have hrest := ih ⟨s.tokens - 1, s.lastReset⟩ (by simp; omega)
        (fun u hu => hw u (by simp [hu]))
      rcases hrest with ⟨hreset, hcount⟩
      constructor
      · simp only [acquireSeq, hstep]
        exact hreset
      · simp only [acquireSeq, hstep, countTrue, List.filter_cons]
        simp only [countTrue] at hcount
        simp at hcount ⊢
        omega
    · have htz : s.tokens = 0 := by omega
      have hstep : acquire requests duration t s = (false, s) := by
        simp [acquire, hnr, hp]
      have hrest := ih s h0 (fun u hu => hw u (by simp [hu]))
      rcases hrest with ⟨hreset, hcount⟩
      constructor
      · simp only [acquireSeq, hstep]
        exact hreset
      · simp only [acquireSeq, hstep, countTrue, List.filter_cons]
        simp only [countTrue] at hcount
        simp at hcount ⊢
        omega

/-- C1 (Broadcast fidelity — refuted, code bug): in `broadcastExample`
the three `subscribe` tasks all range over the one shared input channel,
so the runtime delivers each sent item to exactly one of them, not to
all.  Concretely, under the schedule that delivers every item to
subscriber 0, subscriber 1 observes nothing; and under every delivery
schedule it is impossible for all three subscribers to observe the full
input `["a", "b", "c"]`, because the three observation lists partition
the three input items. -/
theorem broadcast_fidelity_fails :
    taken 3 ["a", "b", "c"] (fun _ => (0 : Fin 3)) 1 = []
  ∧ ∀ assign : Nat → Fin 3,
      ¬ ∀ j : Fin 3, taken 3 ["a", "b", "c"] assign j = ["a", "b", "c"] := by
  refine ⟨by decide, ?_⟩
  intro assign h
  have hpart := taken_partition 3 ["a", "b", "c"] assign
  have hcard := congrArg Multiset.card hpart
  rw [multiset_card_sum] at hcard
  have h3 : ∀ j : Fin 3,
      ((taken 3 ["a", "b", "c"] assign j : List String) : Multiset String).card = 3 := by
    intro j
    rw [h j]
    rfl
  rw [Finset.sum_congr rfl fun j _ => h3 j] at hcard
  simp at hcard

/-- C2 counterexample: the `done` channel of `cancellationExample` is
not a permanently fired, idempotent signal.  After one fire and one
successful poll, the next poll observes the signal unfired; and a second
fire does have an additional effect: after two fires the second poll
observes fired, whereas after one fire it does not. -/
theorem cancellation_signal_not_permanent :
    (pollSignal (pollSignal (fireSignal 0)).2).1 = false
  ∧ (pollSignal (pollSignal (fireSignal (fireSignal 0))).2).1 = true := by
  decide

/-- C2 (amended): the `done` channel is a one-shot message, not a flag:
a fire is observed fired by exactly the next successful poll, which
consumes it and restores the previous state; a poll observes the signal
fired precisely when an undelivered fire is pending. -/
theorem cancellation_signal_one_shot (p : Nat) :
    (pollSignal (fireSignal p)).1 = true
  ∧ (pollSignal (fireSignal p)).2 = p
  ∧ ((pollSignal p).1 = true ↔ 0 < p) := by
  refine ⟨by simp [pollSignal, fireSignal], by simp [pollSignal, fireSignal], ?_⟩
  by_cases h : 0 < p <;> simp [pollSignal, h]

/-- C3 counterexample: composing the stage pattern of the pipeline
section with the transforms `+1`, `*2`, `-3` in that order over
`[1,2,3,4,5]` does not produce `[-1,1,3,5,7]` (it produces
`[1,3,5,7,9]`, since each element maps to `(n+1)*2-3 = 2n-1`). -/
theorem pipeline_claimed_output_wrong :
    stageLoop (fun n => n - 3) (stageLoop (fun n => n * 2) (stageLoop (fun n => n + 1)
      (generate [1, 2, 3, 4, 5]))) ≠ [-1, 1, 3, 5, 7] := by
  decide

/-- C3 (amended): a 3-stage pipeline chain built from the single-task
FIFO stage of the pipeline section, with transforms `+1`, `*2`, `-3` in
that order over input `[1,2,3,4,5]`, outputs exactly `[1,3,5,7,9]`, in
that order. -/
theorem pipeline_order_preservation :
    stageLoop (fun n => n - 3) (stageLoop (fun n => n * 2) (stageLoop (fun n => n + 1)
      (generate [1, 2, 3, 4, 5]))) = [1, 3, 5, 7, 9] := by
  decide

/-- C4 (Worker Pool completeness): for every jobs backlog, every worker
count of at least one, and every receive schedule, the results conduit
receives exactly one result per job — the multiset of results is exactly
the jobs doubled (`job * 2`), so no job is processed twice and none is
omitted, and the number of results equals the number of jobs; moreover
every worker decrements the wait-group counter, so it reaches zero and
the orchestrator's `wg.Wait(); close(results)` closes the results
conduit only after all workers have exited. -/
theorem worker_pool_completeness (jobs : List Int) (k : Nat) (assign : Nat → Fin k)
    (hk : 1 ≤ k) :
    poolResults k jobs assign = Multiset.map (fun job => job * 2) (jobs : Multiset Int)
  ∧ (poolResults k jobs assign).card = jobs.length
  ∧ finalCounter k (List.ofFn fun j : Fin k =>
      runWorker (fun job => Except.ok (job * 2)) (taken k jobs assign j)) = 0 := by
  have hmain : poolResults k jobs assign
      = Multiset.map (fun job => job * 2) (jobs : Multiset Int) := by
    unfold poolResults
    have hcoe : ∀ j : Fin k,
        ((stageLoop (fun job => job * 2) (taken k jobs assign j) : List Int) : Multiset Int)
          = (((taken k jobs assign j).map (fun job => job * 2) : List Int) : Multiset Int) := by
      intro j
      rw [stageLoop_eq_map]
    rw [Finset.sum_congr rfl fun j _ => hcoe j, sum_map_taken]
  refine ⟨hmain, ?_, ?_⟩
  · rw [hmain]
    simp
  · unfold finalCounter
    have hall : (List.ofFn fun j : Fin k =>
          runWorker (fun job => Except.ok (job * 2)) (taken k jobs assign j)).filter
            (fun e => e.decremented)
        = List.ofFn fun j : Fin k =>
            runWorker (fun job => Except.ok (job * 2)) (taken k jobs assign j) := by
      apply List.filter_eq_self.mpr
      intro e he
      rcases (List.mem_ofFn _ _).1 he with ⟨i, hi⟩
      rw [← hi]
      simp [runWorker_decremented]
    rw [hall, List.length_ofFn]
    simp

/-- Witness for C4: nine jobs, three workers, round-robin schedule. -/
theorem worker_pool_completeness_witness :
    poolResults 3 [1, 2, 3, 4, 5, 6, 7, 8, 9] wAssign3
      = Multiset.map (fun job => job * 2) (([1, 2, 3, 4, 5, 6, 7, 8, 9] : List Int) : Multiset Int)
  ∧ (poolResults 3 [1, 2, 3, 4, 5, 6, 7, 8, 9] wAssign3).card
      = ([1, 2, 3, 4, 5, 6, 7, 8, 9] : List Int).length
  ∧ finalCounter 3 (List.ofFn fun j : Fin 3 =>
      runWorker (fun job => Except.ok (job * 2)) (taken 3 [1, 2, 3, 4, 5, 6, 7, 8, 9] wAssign3 j)) = 0 :=
  worker_pool_completeness [1, 2, 3, 4, 5, 6, 7, 8, 9] 3 wAssign3 (by decide)

/-- C5 (Rate Limiter bound): for every sequence of `acquire` calls whose
timestamps all fall strictly within the current window (so no refill
fires between them), at most `requests` (the capacity) of the calls are
permitted; and concretely, with capacity 3 and a 1-second (1000 ms)
window, ten calls inside the first second yield exactly three permits
and seven denials, after which three calls past the window boundary are
all permitted again. -/
theorem rate_limiter_bound :
    (∀ (requests duration : Int) (ts : List Int) (s : LimiterState),
        0 ≤ s.tokens → s.tokens ≤ requests →
        (∀ t ∈ ts, t - s.lastReset < duration) →
        ((countTrue (acquireSeq requests duration ts s).1 : Int) ≤ requests))
  ∧ (acquireSeq 3 1000 [0, 100, 200, 300, 400, 500, 600, 700, 800, 900, 1000, 1001, 1002]
        ⟨3, 0⟩).1
      = [true, true, true, false, false, false, false, false, false, false, true, true, true] := by
  constructor
  · intro requests duration ts s h0 h1 hw
    have h := (acquireSeq_window_aux requests duration ts s h0 hw).2
    omega
  · decide

/-- Witness for C5: ten calls at time 0 against a fresh capacity-3
limiter permit at most three. -/
theorem rate_limiter_bound_witness :
    (countTrue (acquireSeq 3 1000 [0, 0, 0, 0, 0, 0, 0, 0, 0, 0] ⟨3, 0⟩).1 : Int) ≤ 3 :=
  rate_limiter_bound.1 3 1000 [0, 0, 0, 0, 0, 0, 0, 0, 0, 0] ⟨3, 0⟩
    (by decide) (by decide) (by decide)

set_option maxRecDepth 10000

/-- C6 (Fan-Out/Fan-In round trip): for every receive schedule splitting
the input `[1..100]` across the 4 fan-out workers (each computing
`n * n`), the fan-in merge of the 4 worker output conduits carries, as a
multiset, exactly the squares of the 100 inputs — every input item is
delivered to exactly one worker conduit and forwarded exactly once — so
the merged output has exactly 100 elements and its value set is exactly
the image of squaring over `[1..100]`, of cardinality 100. -/
theorem fanout_fanin_roundtrip (assign : Nat → Fin 4) :
    fanInMerge 4 (fanOutOutputs 4 input100 assign)
      = Multiset.map (fun n => n * n) (input100 : Multiset Int)
  ∧ (fanInMerge 4 (fanOutOutputs 4 input100 assign)).card = 100
  ∧ (fanInMerge 4 (fanOutOutputs 4 input100 assign)).toFinset
      = Finset.image (fun n : Int => n * n) (Finset.Icc 1 100)
  ∧ (fanInMerge 4 (fanOutOutputs 4 input100 assign)).toFinset.card = 100 := by
  have hmain : fanInMerge 4 (fanOutOutputs 4 input100 assign)
      = Multiset.map (fun n => n * n) (input100 : Multiset Int) := by
    unfold fanInMerge fanOutOutputs
    have hcoe : ∀ j : Fin 4,
        ((stageLoop (fun n => n * n) (taken 4 input100 assign j) : List Int) : Multiset Int)
          = (((taken 4 input100 assign j).map (fun n => n * n) : List Int) : Multiset Int) := by
      intro j
      rw [stageLoop_eq_map]
    rw [Finset.sum_congr rfl fun j _ => hcoe j, sum_map_taken]
  have hicc : (Finset.Icc (1 : Int) 100) = input100.toFinset := by decide
  have hnodup : ((input100.map fun n => n * n) : List Int).Nodup := by decide
  have hlist : Multiset.map (fun n => n * n) (input100 : Multiset Int)
      = (((input100.map fun n => n * n) : List Int) : Multiset Int) := by
    simp
  refine ⟨hmain, ?_, ?_, ?_⟩
  · rw [hmain]
    simp only [Multiset.card_map, Multiset.coe_card]
    decide
  · rw [hmain, hicc, Multiset.toFinset_map]
    congr 1
  · rw [hmain, hlist, Multiset.toFinset_card_of_nodup (by simpa using hnodup)]
    simp only [Multiset.coe_card, List.length_map]
    decide

/-- C7 (Worker failure still decrements): if worker `i`'s processing
function faults on some job (its run records a panic), the worker still
decrements the wait-group counter — the decrement is the deferred
`wg.Done()`, which Go runs while a panic unwinds, not a last statement
of the normal path — so the counter over all workers still reaches zero
and the orchestrator's wait returns; and everything that worker enqueued
on the results conduit is the successful output of one of its jobs, so
the failed job's absence from the results is the only observable
symptom. -/
theorem worker_failure_still_decrements (process : Int → Except String Int)
    (shares : List (List Int)) (i : Nat) (hi : i < shares.length)
    (hfail : (runWorker process (shares.get ⟨i, hi⟩)).panicMsg ≠ none) :
    (runWorker process (shares.get ⟨i, hi⟩)).decremented = true
  ∧ finalCounter shares.length (shares.map (runWorker process)) = 0
  ∧ ∀ r ∈ (runWorker process (shares.get ⟨i, hi⟩)).sent,
      ∃ j ∈ shares.get ⟨i, hi⟩, process j = Except.ok r := by
  refine ⟨runWorker_decremented _ _, finalCounter_map_runWorker _ _, ?_⟩
  intro r hr
  rw [runWorker_sent] at hr
  exact workerBody_sent_sound process _ r hr

/-- Witness for C7: a single worker whose processing function faults on
the job `2` in the backlog `[1, 2, 3]`. -/
theorem worker_failure_still_decrements_witness :
    (runWorker failingProcess (([[1, 2, 3]] : List (List Int)).get ⟨0, by decide⟩)).decremented
        = true
  ∧ finalCounter ([[1, 2, 3]] : List (List Int)).length
      (([[1, 2, 3]] : List (List Int)).map (runWorker failingProcess)) = 0
  ∧ ∀ r ∈ (runWorker failingProcess (([[1, 2, 3]] : List (List Int)).get ⟨0, by decide⟩)).sent,
      ∃ j ∈ ([[1, 2, 3]] : List (List Int)).get ⟨0, by decide⟩,
        failingProcess j = Except.ok r :=
  worker_failure_still_decrements failingProcess [[1, 2, 3]] 0 (by decide) (by decide)

/-- C8 (No deadlock under closure): once a component's producer-side
conduit is closed with a finite backlog, every spawned task reaches its
exit within backlog + 1 scheduler steps, having forwarded its whole
backlog and closed its output conduit: the worker-pool worker loop
(transform `job * 2`), the pipeline stage `square`, every fan-out worker
on the share it receives, every fan-in forwarder (and hence the fan-in
coordinator closes the merged output), and every broadcast subscriber
loop. -/
theorem no_deadlock_under_closure (jobs xs : List Int) (msgs : List String)
    (shares : List (List Int)) (name : String) :
    ((stageStep (fun job : Int => job * 2))^[jobs.length + 1] (stageInit jobs)
        : StageState Int Int) = ⟨[], jobs.map (fun job => job * 2), true⟩
  ∧ ((stageStep (fun n : Int => n * n))^[xs.length + 1] (stageInit xs)
        : StageState Int Int) = ⟨[], xs.map (fun n => n * n), true⟩
  ∧ (shares.all fun sh =>
        ((stageStep (fun n : Int => n * n))^[sh.length + 1] (stageInit sh)).closed) = true
  ∧ fanInClosed shares = true
  ∧ ((stageStep (fun msg => name ++ " received: " ++ msg))^[msgs.length + 1] (stageInit msgs)
        : StageState String String)
      = ⟨[], msgs.map (fun msg => name ++ " received: " ++ msg), true⟩ := by
  refine ⟨?_, ?_, ?_, ?_, ?_⟩
  · rw [stageInit, stageStep_run]
    simp
  · rw [stageInit, stageStep_run]
    simp
  · rw [List.all_eq_true]
    intro sh _
    rw [stageInit, stageStep_run]
  · rw [fanInClosed, List.all_eq_true]
    intro sh _
    rw [stageInit, stageStep_run]
  · rw [stageInit, stageStep_run]
    simp

/-- C9 (Worker-pool drain-after-wait): the orchestrator of
`workerPoolExample` reads no result before `wg.Wait()` returns, so every
worker send into the bounded results conduit must be accepted with no
receiver running; whenever the number of results does not exceed the
conduit's capacity (9 jobs against capacity 100 in the source), every
send is accepted immediately — no worker blocks forever on its enqueue —
and, every worker having then run to completion and decremented, the
wait-group counter reaches zero and the wait returns. -/
theorem workerpool_drain_after_wait (cap : Nat) (rs : List Int) (shares : List (List Int))
    (h : rs.length ≤ cap) :
    trySendAll cap rs [] = some rs
  ∧ finalCounter shares.length
      (shares.map (runWorker (fun job => Except.ok (job * 2)))) = 0 := by
  constructor
  · have := trySendAll_ok cap rs [] (by simpa using h)
    simpa using this
  · exact finalCounter_map_runWorker _ _

/-- Witness for C9: the nine doubled results of the source example fit
in the capacity-100 results conduit. -/
theorem workerpool_drain_after_wait_witness :
    trySendAll 100 [2, 4, 6, 8, 10, 12, 14, 16, 18] [] = some [2, 4, 6, 8, 10, 12, 14, 16, 18]
  ∧ finalCounter ([[1, 4, 7], [2, 5, 8], [3, 6, 9]] : List (List Int)).length
      (([[1, 4, 7], [2, 5, 8], [3, 6, 9]] : List (List Int)).map
        (runWorker (fun job => Except.ok (job * 2)))) = 0 :=
  workerpool_drain_after_wait 100 [2, 4, 6, 8, 10, 12, 14, 16, 18]
    [[1, 4, 7], [2, 5, 8], [3, 6, 9]] (by decide)

/-- C10 (Rate-limiter token-count invariant): one `acquire` call keeps
the token count between 0 and the capacity `requests`, and the new count
is exactly the pre-call count (or exactly `requests`, if the elapsed
window triggered a refill) minus one exactly when the call returned
`true`; in particular a denied call leaves the count unchanged and a
refill sets it to exactly the capacity. -/
theorem rate_limiter_token_invariant (requests duration now : Int) (s : LimiterState)
    (h0 : 0 ≤ s.tokens) (h1 : s.tokens ≤ requests) (h2 : 0 ≤ requests) :
    0 ≤ (acquire requests duration now s).2.tokens
  ∧ (acquire requests duration now s).2.tokens ≤ requests
  ∧ (acquire requests duration now s).2.tokens
      = (if now - s.lastReset ≥ duration then requests else s.tokens)
        - (if (acquire requests duration now s).1 then 1 else 0) := by
  by_cases hr : now - s.lastReset ≥ duration
  · by_cases hp : requests > 0 <;>
      simp [acquire, hr, hp] <;> omega
  · by_cases hp : s.tokens > 0 <;>
      simp [acquire, hr, hp] <;> omega

/-- Witness for C10: a permitted call against a fresh capacity-3
limiter inside its window. -/
theorem rate_limiter_token_invariant_witness :
    0 ≤ (acquire 3 1000 500 ⟨3, 0⟩).2.tokens
  ∧ (acquire 3 1000 500 ⟨3, 0⟩).2.tokens ≤ 3
  ∧ (acquire 3 1000 500 ⟨3, 0⟩).2.tokens
      = (if (500 : Int) - (⟨3, 0⟩ : LimiterState).lastReset ≥ 1000 then 3
          else (⟨3, 0⟩ : LimiterState).tokens)
        - (if (acquire 3 1000 500 ⟨3, 0⟩).1 then 1 else 0) :=
  rate_limiter_token_invariant 3 1000 500 ⟨3, 0⟩ (by decide) (by decide) (by decide)

/-- Witness for C2 (amended): a pending count of 5. -/
theorem cancellation_signal_one_shot_witness :
    (pollSignal (fireSignal 5)).1 = true
  ∧ (pollSignal (fireSignal 5)).2 = 5
  ∧ ((pollSignal 5).1 = true ↔ 0 < 5) :=
  cancellation_signal_one_shot 5

/-- Witness for C6: the round-robin schedule over the 4 workers. -/
theorem fanout_fanin_roundtrip_witness :
    (fanInMerge 4 (fanOutOutputs 4 input100
        (fun i => ⟨i % 4, Nat.mod_lt i (by decide)⟩))).card = 100
  ∧ (fanInMerge 4 (fanOutOutputs 4 input100
        (fun i => ⟨i % 4, Nat.mod_lt i (by decide)⟩))).toFinset.card = 100 :=
  ⟨(fanout_fanin_roundtrip _).2.1, (fanout_fanin_roundtrip _).2.2.2⟩

/-- Witness for C8: concrete backlogs for the square stage and the
fan-in forwarders. -/
theorem no_deadlock_under_closure_witness :
    fanInClosed [[1], [2, 3]] = true
  ∧ ((stageStep (fun n : Int => n * n))^[([1, 2] : List Int).length + 1] (stageInit [1, 2])
        : StageState Int Int) = ⟨[], ([1, 2] : List Int).map (fun n => n * n), true⟩ :=
  ⟨(no_deadlock_under_closure [1, 2, 3] [1, 2] ["a"] [[1], [2, 3]] "Subscriber-1").2.2.2.1,
   (no_deadlock_under_closure [1, 2, 3] [1, 2] ["a"] [[1], [2, 3]] "Subscriber-1").2.1⟩
